import Mathlib

/-!
Shallow embedding of the presence-tracked real-time message-routing layer of
`workplace-connect-server` (src/services/socket.service.ts, the MessageService
in src/services/message.service.ts, and the zod schema in
src/validations/message.validation.ts).

The server keeps two in-memory maps of strings to lists of connection ids:
`userSockets : Map<string, string[]>` (the presence registry) and the socket.io
room adapter (room name -> set of socket ids).  Both are embedded as
association lists `List (String × List String)` with JS `Map` semantics
(first-match lookup, in-place replacement on set, append of new keys at the
end, deletion of the entry).  Event emission is embedded as a list of
`Emit` values (a socket.io target together with an event payload); delivery of
an emission to concrete connections is resolved against the room state by
`deliveries`, mirroring socket.io semantics: `io.to(room)` reaches every
socket in the room, `socket.to(room)` excludes the emitting socket,
`io.emit` reaches every connected socket, and `socket.emit` reaches only the
emitting socket.  External collaborators (jwt verification, MongoDB
`Message.create`) enter as oracle parameters.
-/

namespace WorkplaceConnect

abbrev UserId := String
abbrev ConnId := String
abbrev GroupId := String
abbrev MsgId := String

/-- A user document as read by `User.findById` / `populate('sender', ...)`. -/
structure UserRec where
  uid : UserId
  firstName : String
  lastName : String
  profilePictureUrl : String
  deriving DecidableEq, Repr

/-- A group document as read by `Group.findById` (only the fields the
real-time layer consults). -/
structure GroupRec where
  gid : GroupId
  members : List UserId
  deriving DecidableEq, Repr

/-- A persisted message document (the fields of the `Message` model that the
real-time layer reads or writes). -/
structure PersistedMessage where
  mid : MsgId
  content : String
  senderId : UserId
  receiver : Option UserId
  group : Option GroupId
  readBy : List UserId
  createdAt : String
  deriving DecidableEq, Repr

/-- The `sender` block of the formatted wire message built in the
`send-message` handler. -/
structure SenderInfo where
  uid : UserId
  firstName : String
  lastName : String
  profilePicture : String
  deriving DecidableEq, Repr

/-- The formatted message object (`formattedMessage` in the handler):
message id, text, sender display fields, ISO timestamp and the per-recipient
`isOwn` flag. -/
structure FormattedMessage where
  mid : MsgId
  text : String
  sender : SenderInfo
  timestamp : String
  isOwn : Bool
  deriving DecidableEq, Repr

/-- The events the socket layer emits. -/
inductive Event where
  | directMessage (m : FormattedMessage)
  | groupMessage (m : FormattedMessage) (groupId : GroupId)
  | messageSent (success : Bool) (m : FormattedMessage)
  | userStatus (u : UserId) (online : Bool)
  | userJoinedGroup (u : UserId) (g : GroupId)
  | userLeftGroup (u : UserId) (g : GroupId)
  | messagesMarkedRead (success : Bool) (ids : List MsgId)
  | errorEvent (message : String)
  deriving DecidableEq, Repr

/-- A socket.io emission target.
`self c` is `socket.emit` on socket `c`; `room n` is `io.to(n).emit`;
`roomExcept n c` is `socket.to(n).emit` from socket `c` (room minus the
emitter); `all` is `io.emit`. -/
inductive Target where
  | self (c : ConnId)
  | room (name : String)
  | roomExcept (name : String) (c : ConnId)
  | all
  deriving DecidableEq, Repr

abbrev Emit := Target × Event

/-! ## JS `Map<string, string[]>` as an association list -/

abbrev StrListMap := List (String × List String)

/-- JS `Map.get` (first matching key). -/
def mapGet : StrListMap → String → Option (List String)
  | [], _ => none
  | p :: rest, k => if p.1 = k then some p.2 else mapGet rest k

/-- JS `Map.set`: replace the entry in place, or append a new entry. -/
def mapSet : StrListMap → String → List String → StrListMap
  | [], k, v => [(k, v)]
  | p :: rest, k, v => if p.1 = k then (k, v) :: rest else p :: mapSet rest k v

/-- JS `Map.delete`: remove the entry for the key. -/
def mapDelete : StrListMap → String → StrListMap
  | [], _ => []
  | p :: rest, k => if p.1 = k then rest else p :: mapDelete rest k

/-- JS `Map.has`. -/
def mapHas (m : StrListMap) (k : String) : Bool :=
  (mapGet m k).isSome

/-- JS `Array.from(map.keys())`. -/
def mapKeys (m : StrListMap) : List String :=
  m.map Prod.fst

/-! ## The presence registry (`userSockets`)

Mirrors the `connection` / `disconnect` handlers in
`socket.service.ts`: on connect the socket id is pushed onto the user's
array and the entry is stored back; on disconnect the socket id is filtered
out, the entry is stored back if anything remains and deleted (with an
offline broadcast) otherwise. -/

abbrev Registry := StrListMap

/-- Source: `const userSockets = this.userSockets.get(socket.userId) || [];
userSockets.push(socket.id); this.userSockets.set(socket.userId, userSockets);` -/
def registerConn (m : Registry) (u : UserId) (c : ConnId) : Registry :=
  mapSet m u ((mapGet m u).getD [] ++ [c])

/-- The registry part of the `disconnect` handler: filter the socket id out;
if sockets remain store them back (no event), otherwise delete the entry and
broadcast a `user-status offline` event (`this.emitUserStatus(userId,
'offline')` uses `io.emit`). -/
def handleDisconnectRegistry (m : Registry) (u : UserId) (c : ConnId) :
    Registry × List Emit :=
  let userSockets := (mapGet m u).getD []
  let updatedSockets := userSockets.filter (fun x => x ≠ c)
  if updatedSockets.length > 0 then
    (mapSet m u updatedSockets, [])
  else
    (mapDelete m u, [(Target.all, Event.userStatus u false)])

/-- Source: `public isUserOnline(userId: string): boolean { return this.userSockets.has(userId); }` -/
def isUserOnline (m : Registry) (u : UserId) : Bool :=
  mapHas m u

/-- Source: `public getOnlineUsers(): string[] { return Array.from(this.userSockets.keys()); }` -/
def getOnlineUsers (m : Registry) : List UserId :=
  mapKeys m

/-- The connection ids currently recorded for a user (the user's array in
`userSockets`, or `[]` when absent). -/
def connsOf (m : Registry) (u : UserId) : List ConnId :=
  (mapGet m u).getD []

/-! ## Rooms (the socket.io adapter state)

`socket.join(name)` adds the socket to the room's set (idempotent);
`socket.leave(name)` removes it, and socket.io drops a room once it has no
sockets left.  Group rooms are named `"group:" ++ groupId`; on connect each
socket also joins a personal room named by the bare user id. -/

abbrev Rooms := StrListMap

/-- Adapter `socket.join(name)`: add the socket to the room, once. -/
def joinRoomMap (rooms : Rooms) (name : String) (c : ConnId) : Rooms :=
  let l := (mapGet rooms name).getD []
  if c ∈ l then rooms else mapSet rooms name (l ++ [c])

/-- Adapter `socket.leave(name)`: remove the socket; drop the room when it empties. -/
def leaveRoomMap (rooms : Rooms) (name : String) (c : ConnId) : Rooms :=
  match mapGet rooms name with
  | none => rooms
  | some l =>
    let l' := l.filter (fun x => x ≠ c)
    if l' = [] then mapDelete rooms name else mapSet rooms name l'

/-- The sockets currently in a room. -/
def roomConns (rooms : Rooms) (name : String) : List ConnId :=
  (mapGet rooms name).getD []

/-- Remove a socket from every room (socket.io does this automatically when
a socket disconnects), dropping rooms that empty. -/
def removeConnFromRooms (rooms : Rooms) (c : ConnId) : Rooms :=
  rooms.foldr
    (fun p acc =>
      let l := p.2.filter (fun x => x ≠ c)
      if l = [] then acc else (p.1, l) :: acc)
    []

/-! ## Server state and event delivery -/

/-- The in-memory state of the socket layer together with the document
database it consults: users (`User`), groups (`Group`), persisted messages
(`Message`), the presence registry, the room adapter state, and the admitted
live sockets with their attached `socket.userId`. -/
structure ServerState where
  users : List UserRec
  groups : List GroupRec
  messages : List PersistedMessage
  userSockets : Registry
  rooms : Rooms
  connections : List (ConnId × UserId)
  deriving DecidableEq, Repr

/-- The `socket.userId` attached to an admitted connection, if any. -/
def connUser (st : ServerState) (c : ConnId) : Option UserId :=
  (st.connections.find? (fun p => p.1 = c)).map Prod.snd

/-- Resolve an emission target to the concrete connection ids it reaches,
per socket.io semantics. -/
def targetConns (st : ServerState) : Target → List ConnId
  | Target.self c => [c]
  | Target.room name => roomConns st.rooms name
  | Target.roomExcept name c => (roomConns st.rooms name).filter (fun x => x ≠ c)
  | Target.all => st.connections.map Prod.fst

/-- Resolve a list of emissions into per-connection deliveries. -/
def deliveries (st : ServerState) (emits : List Emit) : List (ConnId × Event) :=
  emits.flatMap (fun e => (targetConns st e.1).map (fun c => (c, e.2)))

/-! ## Handshake authentication (`setupSocketAuth`) -/

/-- Outcome of `jwt.verify(token, secret)`, an external cryptographic check:
either the token is rejected (throws) or it yields the subject id claim. -/
inductive TokenVerify where
  | invalid
  | valid (id : UserId)
  deriving DecidableEq, Repr

/-- The socket.io auth middleware: no token means
`"Token not provided"`; a token `jwt.verify` rejects means
`"Invalid token"` (via the catch block); an unknown subject means
`"User not found"`; otherwise the user id is attached to the socket. -/
def socketAuth (users : List UserRec) (token : Option TokenVerify) :
    Except String UserId :=
  match token with
  | none => Except.error "Authentication error: Token not provided"
  | some TokenVerify.invalid => Except.error "Authentication error: Invalid token"
  | some (TokenVerify.valid id) =>
    if (users.find? (fun r => r.uid = id)).isSome then Except.ok id
    else Except.error "Authentication error: User not found"

/-! ## `createMessageSchema` (src/validations/message.validation.ts) -/

/-- The raw `send-message` payload. -/
structure RawMessage where
  content : String
  receiver : Option String
  group : Option String
  deriving DecidableEq, Repr

/-- The JS/zod string `trim` transform: strip leading and trailing
whitespace (executable model of `String.prototype.trim`). -/
def trimStr (s : String) : String :=
  ⟨((s.data.dropWhile Char.isWhitespace).reverse.dropWhile Char.isWhitespace).reverse⟩

/-- Function `mongoose.Types.ObjectId.isValid`, an external library check; modelled
as the canonical 24-hex-character form. -/
def isValidObjectId (s : String) : Bool :=
  s.length = 24 && s.toList.all (fun ch =>
    ch.isDigit || ('a' ≤ ch && ch ≤ 'f') || ('A' ≤ ch && ch ≤ 'F'))

/-- Schema `createMessageSchema.parse`: `content` must be non-empty (zod checks
`min(1)` before applying the `trim` transform), `receiver` and `group` must
be valid object ids when present, at least one of them must be present, and
they must not both be present. -/
def parseCreateMessage (raw : RawMessage) : Except String RawMessage :=
  if raw.content.length < 1 then
    Except.error "Message content cannot be empty"
  else if raw.receiver.any (fun r => !isValidObjectId r) then
    Except.error "Invalid receiver ID format"
  else if raw.group.any (fun g => !isValidObjectId g) then
    Except.error "Invalid group ID format"
  else if raw.receiver.isNone && raw.group.isNone then
    Except.error "Either receiver or group must be provided"
  else if raw.receiver.isSome && raw.group.isSome then
    Except.error "Message cannot have both receiver and group"
  else
    Except.ok { raw with content := trimStr raw.content }

/-! ## `MessageService` (src/services/message.service.ts) -/

/-- Service `MessageService.sendMessage`: validates that exactly one target is set,
that a direct receiver exists, and that the sender is a member of a target
group; then calls the external `Message.create` (its outcome is the oracle
`createOutcome`; `newId` and `now` stand for the id and `createdAt` the
database generates).  On success the created document (with `readBy`
initialised to the sender) is appended to the message store and returned. -/
def sendMessageSvc (st : ServerState) (senderId : UserId) (content : String)
    (receiverId : Option UserId) (groupId : Option GroupId)
    (createOutcome : Except String Unit) (newId : MsgId) (now : String) :
    Except String (List PersistedMessage × PersistedMessage) :=
  if receiverId.isNone && groupId.isNone then
    Except.error "Either receiver or group must be provided"
  else if receiverId.isSome && groupId.isSome then
    Except.error "Message cannot have both receiver and group"
  else
    let receiverCheck : Except String Unit :=
      match receiverId with
      | none => Except.ok ()
      | some r =>
        if (st.users.find? (fun x => x.uid = r)).isSome then Except.ok ()
        else Except.error "Receiver not found"
    let groupCheck : Except String Unit :=
      match groupId with
      | none => Except.ok ()
      | some g =>
        match st.groups.find? (fun x => x.gid = g) with
        | none => Except.error "Group not found"
        | some grp =>
          if senderId ∈ grp.members then Except.ok ()
          else Except.error "You are not a member of this group"
    match receiverCheck with
    | Except.error e => Except.error e
    | Except.ok _ =>
      match groupCheck with
      | Except.error e => Except.error e
      | Except.ok _ =>
        match createOutcome with
        | Except.error e => Except.error e
        | Except.ok _ =>
          let msg : PersistedMessage :=
            { mid := newId, content := content, senderId := senderId,
              receiver := receiverId, group := groupId,
              readBy := [senderId], createdAt := now }
          Except.ok (st.messages ++ [msg], msg)

/-- Service `MessageService.markMessagesAsRead`: `updateMany` with filter
`{_id ∈ messageIds, readBy ≠ userId}` and update
`{$addToSet: {readBy: userId}}` — every listed message not yet read by the
user gains the user in its `readBy` array. -/
def markMessagesAsRead (msgs : List PersistedMessage) (u : UserId)
    (ids : List MsgId) : List PersistedMessage :=
  msgs.map (fun m =>
    if m.mid ∈ ids ∧ u ∉ m.readBy then { m with readBy := m.readBy ++ [u] }
    else m)

/-! ## The socket event handlers (`setupEventHandlers`) -/

/-- The `formattedMessage` object built in the `send-message` handler from
the persisted document and its populated sender (`isOwn` is initialised to
`false`, "will be set correctly for each recipient").  If the sender user
record is missing the display fields are empty. -/
def formatMessage (users : List UserRec) (m : PersistedMessage) : FormattedMessage :=
  let s := (users.find? (fun r => r.uid = m.senderId)).getD
    { uid := m.senderId, firstName := "", lastName := "", profilePictureUrl := "" }
  { mid := m.mid, text := m.content,
    sender := { uid := m.senderId, firstName := s.firstName,
                lastName := s.lastName, profilePicture := s.profilePictureUrl },
    timestamp := m.createdAt, isOwn := false }

/-- Method `emitDirectMessage`: to the sender's personal room with `isOwn: true`,
to the receiver's personal room with `isOwn: false` (both via `io.to`). -/
def emitDirectMessage (senderId receiverId : UserId) (message : FormattedMessage) :
    List Emit :=
  [(Target.room senderId, Event.directMessage { message with isOwn := true }),
   (Target.room receiverId, Event.directMessage { message with isOwn := false })]

/-- Method `emitGroupMessage`: `io.to("group:" + groupId).emit('group-message',
{...message, groupId})` — the message object is spread unchanged, so it
carries `isOwn` as constructed (`false`). -/
def emitGroupMessage (groupId : GroupId) (message : FormattedMessage) : List Emit :=
  [(Target.room ("group:" ++ groupId), Event.groupMessage message groupId)]

/-- The `connection` handler body for an authenticated socket: push the
socket id into `userSockets`, join the personal room named by the user id,
and broadcast `user-status online` to everyone (`emitUserStatus` uses
`io.emit`, unconditionally on every connection). -/
def handleConnect (st : ServerState) (u : UserId) (c : ConnId) :
    ServerState × List Emit :=
  ({ st with
      userSockets := registerConn st.userSockets u c,
      rooms := joinRoomMap st.rooms u c,
      connections := st.connections ++ [(c, u)] },
   [(Target.all, Event.userStatus u true)])

/-- A transport-level connection attempt: the auth middleware runs first;
when it calls `next(err)` socket.io refuses the connection, so the
`connection` handler never runs — no registration, no events (framework
semantics of socket.io middleware rejection). -/
def handleConnectionAttempt (st : ServerState) (c : ConnId)
    (token : Option TokenVerify) : ServerState × List Emit :=
  match socketAuth st.users token with
  | Except.error _ => (st, [])
  | Except.ok u => handleConnect st u c

/-- The `send-message` handler: parse the payload with
`createMessageSchema`, call `MessageService.sendMessage`, and on success
route the formatted message (direct when a receiver is present, otherwise to
the group room) followed by the `message-sent` acknowledgement to the
sender with `isOwn: true`.  Any thrown error is caught and surfaced as a
single `error` event on the socket. -/
def handleSendMessage (st : ServerState) (c : ConnId) (u : UserId)
    (raw : RawMessage) (createOutcome : Except String Unit)
    (newId : MsgId) (now : String) : ServerState × List Emit :=
  match parseCreateMessage raw with
  | Except.error e => (st, [(Target.self c, Event.errorEvent e)])
  | Except.ok p =>
    match sendMessageSvc st u p.content p.receiver p.group createOutcome newId now with
    | Except.error e => (st, [(Target.self c, Event.errorEvent e)])
    | Except.ok (msgs, message) =>
      let formattedMessage := formatMessage st.users message
      let route :=
        match p.receiver with
        | some r => emitDirectMessage u r formattedMessage
        | none =>
          match p.group with
          | some g => emitGroupMessage g formattedMessage
          | none => []
      ({ st with messages := msgs },
       route ++
         [(Target.self c,
           Event.messageSent true { formattedMessage with isOwn := true })])

/-- The `join-group` handler: `Group.findById` missing ⇒ one error event;
requester not in `group.members` ⇒ one error event; otherwise join the
`group:`-room and signal `user-joined-group` to the other room members
(`socket.to`, which excludes the joiner). -/
def handleJoinGroup (st : ServerState) (c : ConnId) (u : UserId) (g : GroupId) :
    ServerState × List Emit :=
  match st.groups.find? (fun x => x.gid = g) with
  | none => (st, [(Target.self c, Event.errorEvent "Group not found")])
  | some group =>
    if u ∈ group.members then
      ({ st with rooms := joinRoomMap st.rooms ("group:" ++ g) c },
       [(Target.roomExcept ("group:" ++ g) c, Event.userJoinedGroup u g)])
    else
      (st, [(Target.self c, Event.errorEvent "You are not a member of this group")])

/-- The `leave-group` handler: `socket.leave` the `group:`-room, then —
unconditionally — signal `user-left-group` to the room via `socket.to`. -/
def handleLeaveGroup (st : ServerState) (c : ConnId) (u : UserId) (g : GroupId) :
    ServerState × List Emit :=
  ({ st with rooms := leaveRoomMap st.rooms ("group:" ++ g) c },
   [(Target.roomExcept ("group:" ++ g) c, Event.userLeftGroup u g)])

/-- The `mark-messages-read` handler: run the service update, then
acknowledge to the requesting socket. -/
def handleMarkRead (st : ServerState) (c : ConnId) (u : UserId)
    (ids : List MsgId) : ServerState × List Emit :=
  ({ st with messages := markMessagesAsRead st.messages u ids },
   [(Target.self c, Event.messagesMarkedRead true ids)])

/-- The `disconnect` handler together with the transport cleanup socket.io
performs (the socket leaves every room and is dropped from the connection
list), plus the registry update from the handler body. -/
def handleDisconnect (st : ServerState) (c : ConnId) : ServerState × List Emit :=
  match connUser st c with
  | none => (st, [])
  | some u =>
    let step := handleDisconnectRegistry st.userSockets u c
    ({ st with
        userSockets := step.1,
        rooms := removeConnFromRooms st.rooms c,
        connections := st.connections.filter (fun p => p.1 ≠ c) },
     step.2)

/-- A command arriving on an established connection.  External
nondeterminism (the `Message.create` outcome, the generated message id and
timestamp) travels with the command as oracle data. -/
inductive Command where
  | sendMessage (raw : RawMessage) (createOutcome : Except String Unit)
      (newId : MsgId) (now : String)
  | joinGroup (g : GroupId)
  | leaveGroup (g : GroupId)
  | markRead (ids : List MsgId)
  | disconnect

/-- Dispatch one command from connection `c`.  A connection id that was
never admitted has no socket and no handlers — socket.io delivers no
commands for it, so dispatch is a no-op (framework semantics). -/
def processCommand (st : ServerState) (c : ConnId) (cmd : Command) :
    ServerState × List Emit :=
  match connUser st c with
  | none => (st, [])
  | some u =>
    match cmd with
    | Command.sendMessage raw co newId now => handleSendMessage st c u raw co newId now
    | Command.joinGroup g => handleJoinGroup st c u g
    | Command.leaveGroup g => handleLeaveGroup st c u g
    | Command.markRead ids => handleMarkRead st c u ids
    | Command.disconnect => handleDisconnect st c

/-! ## Registry traces

Abstract register/unregister operations for reasoning about every state the
presence registry can reach from startup (the map starts empty). -/

/-- One registry operation: a connection registering for a user, or the
disconnect-handler registry update. -/
inductive RegOp where
  | reg (u : UserId) (c : ConnId)
  | unreg (u : UserId) (c : ConnId)
  deriving DecidableEq, Repr

def applyRegOp (m : Registry) : RegOp → Registry
  | RegOp.reg u c => registerConn m u c
  | RegOp.unreg u c => (handleDisconnectRegistry m u c).1

/-- The registry after a finite sequence of operations from the empty map. -/
def runRegOps (ops : List RegOp) : Registry :=
  ops.foldl applyRegOp []

/-- Specification-level per-user trace semantics: a register appends the
connection id, an unregister removes every occurrence of it; operations on
other users do not touch `u`'s connections. -/
def liveStepFn (u : UserId) (l : List ConnId) : RegOp → List ConnId
  | RegOp.reg v c => if v = u then l ++ [c] else l
  | RegOp.unreg v c => if v = u then l.filter (fun x => x ≠ c) else l

/-- The connections of `u` that a sequence of operations leaves live. -/
def liveConns (ops : List RegOp) (u : UserId) : List ConnId :=
  ops.foldl (liveStepFn u) []

/-- Registry well-formedness: keys are distinct and no user is mapped to an
empty socket array. -/
def wfReg (m : Registry) : Prop :=
  (mapKeys m).Nodup ∧ ∀ p ∈ m, p.2 ≠ []

/-! ## Concrete scenario data

A small database (three users, two groups) and the states reached by running
the embedded handlers, used by the concrete scenario theorems below.  Raw
message payloads must carry 24-hex-character object ids to pass
`createMessageSchema`, so group ids are such strings. -/

def u1rec : UserRec :=
  { uid := "u1", firstName := "Ann", lastName := "Lee", profilePictureUrl := "pic1" }

def u2rec : UserRec :=
  { uid := "u2", firstName := "Bob", lastName := "Kim", profilePictureUrl := "pic2" }

def u3rec : UserRec :=
  { uid := "u3", firstName := "Cy", lastName := "Doe", profilePictureUrl := "pic3" }

/-- Object id of the group everyone belongs to. -/
def gid1 : GroupId := "aaaaaaaaaaaaaaaaaaaaaaaa"

/-- Object id of the group only `u2` belongs to. -/
def gid2 : GroupId := "bbbbbbbbbbbbbbbbbbbbbbbb"

def g1rec : GroupRec := { gid := gid1, members := ["u1", "u2", "u3"] }

def g2rec : GroupRec := { gid := gid2, members := ["u2"] }

/-- Startup state: database populated, no connections. -/
def st0 : ServerState :=
  { users := [u1rec, u2rec, u3rec], groups := [g1rec, g2rec], messages := [],
    userSockets := [], rooms := [], connections := [] }

/-- State after `u1` connects with socket `c1`. -/
def st1 : ServerState :=
  (handleConnectionAttempt st0 "c1" (some (TokenVerify.valid "u1"))).1

/-- State after, in addition, `u2` connects with socket `c2`. -/
def st2 : ServerState :=
  (handleConnectionAttempt st1 "c2" (some (TokenVerify.valid "u2"))).1

/-- State after, in addition, `u3` connects with socket `c3`. -/
def st3 : ServerState :=
  (handleConnectionAttempt st2 "c3" (some (TokenVerify.valid "u3"))).1

/-- State after, in addition, `c1` joins the room of group `gid1`. -/
def st4 : ServerState := (processCommand st3 "c1" (Command.joinGroup gid1)).1

/-- State after, in addition, `c2` joins the room of group `gid1` as well (`c3` stays out of
the room although `u3` is a member of the group). -/
def st5 : ServerState := (processCommand st4 "c2" (Command.joinGroup gid1)).1

/-- Variant of `st4` where only `c2` has joined the room of `gid1`. -/
def st4b : ServerState := (processCommand st3 "c2" (Command.joinGroup gid1)).1

/-- Timestamp the database generates in the scenario sends. -/
def c4now : String := "2025-01-01T00:00:00.000Z"

/-- The raw `send-message` payload of the group scenario. -/
def c4raw : RawMessage := { content := "hello", receiver := none, group := some gid1 }

/-- Result of `u1` sending "hello" to group `gid1` over `c1`; `Message.create` succeeds
with generated id `"m1"`. -/
def c4send : ServerState × List Emit :=
  processCommand st5 "c1" (Command.sendMessage c4raw (Except.ok ()) "m1" c4now)

/-- The message document the scenario send persists. -/
def c4msg : PersistedMessage :=
  { mid := "m1", content := "hello", senderId := "u1", receiver := none,
    group := some gid1, readBy := ["u1"], createdAt := c4now }

/-- The formatted envelope the scenario send broadcasts. -/
def c4fm : FormattedMessage :=
  { mid := "m1", text := "hello",
    sender := { uid := "u1", firstName := "Ann", lastName := "Lee",
                profilePicture := "pic1" },
    timestamp := c4now, isOwn := false }

/-- A valid raw payload whose persistence will be made to fail. -/
def c1raw : RawMessage := { content := "hi", receiver := none, group := some gid1 }

/-! ## Basic lemmas about the map operations -/

@[simp] theorem mapGet_nil (k : String) : mapGet [] k = none := rfl

@[simp] theorem mapGet_cons (p : String × List String) (rest : StrListMap) (k : String) :
    mapGet (p :: rest) k = if p.1 = k then some p.2 else mapGet rest k := rfl

@[simp] theorem mapSet_nil (k : String) (v : List String) : mapSet [] k v = [(k, v)] := rfl

@[simp] theorem mapSet_cons (p : String × List String) (rest : StrListMap) (k : String)
    (v : List String) :
    mapSet (p :: rest) k v = if p.1 = k then (k, v) :: rest else p :: mapSet rest k v := rfl

@[simp] theorem mapDelete_nil (k : String) : mapDelete [] k = [] := rfl

@[simp] theorem mapDelete_cons (p : String × List String) (rest : StrListMap) (k : String) :
    mapDelete (p :: rest) k = if p.1 = k then rest else p :: mapDelete rest k := rfl

theorem mapGet_mapSet_self (m : StrListMap) (k : String) (v : List String) :
    mapGet (mapSet m k v) k = some v := by
  induction m with
  | nil => simp [mapGet, mapSet]
  | cons p rest ih =>
    by_cases h : p.1 = k <;> simp [mapGet, mapSet, h, ih]

theorem mapGet_mapSet_ne (m : StrListMap) (k k' : String) (v : List String) (h : k ≠ k') :
    mapGet (mapSet m k v) k' = mapGet m k' := by
  induction m with
  | nil => simp [mapGet, mapSet, h]
  | cons p rest ih =>
    by_cases hp : p.1 = k
    · simp [mapGet, mapSet, hp, h, Ne.symm h]
    · by_cases hp' : p.1 = k' <;> simp [mapGet, mapSet, hp, hp', Ne.symm h, ih]

theorem mapGet_mapDelete_ne (m : StrListMap) (k k' : String) (h : k ≠ k') :
    mapGet (mapDelete m k) k' = mapGet m k' := by
  induction m with
  | nil => simp
  | cons p rest ih =>
    by_cases hp : p.1 = k
    · simp [mapGet, mapDelete, hp, h]
    · by_cases hp' : p.1 = k' <;> simp [mapGet, mapDelete, hp, hp', Ne.symm h, ih]

/-- Setting a key to the value it already has is a no-op. -/
theorem mapSet_get_self (m : StrListMap) (k : String) (v : List String)
    (h : mapGet m k = some v) : mapSet m k v = m := by
  induction m with
  | nil => simp [mapGet] at h
  | cons p rest ih =>
    obtain ⟨k0, v0⟩ := p
    by_cases hp : k0 = k
    · subst hp
      simp [mapGet] at h
      simp [mapSet, h]
    · simp [mapGet, hp] at h
      simp [mapSet, hp, ih h]

/-- Deleting an absent key is a no-op. -/
theorem mapDelete_get_none (m : StrListMap) (k : String)
    (h : mapGet m k = none) : mapDelete m k = m := by
  induction m with
  | nil => simp
  | cons p rest ih =>
    by_cases hp : p.1 = k
    · simp [mapGet, hp] at h
    · simp [mapGet, hp] at h
      simp [mapDelete, hp, ih h]

theorem mapSet_mapSet (m : StrListMap) (k : String) (v w : List String) :
    mapSet (mapSet m k v) k w = mapSet m k w := by
  induction m with
  | nil => simp [mapSet]
  | cons p rest ih =>
    by_cases hp : p.1 = k <;> simp [mapSet, hp, ih]

theorem mapDelete_mapSet (m : StrListMap) (k : String) (v : List String) :
    mapDelete (mapSet m k v) k = mapDelete m k := by
  induction m with
  | nil => simp [mapSet, mapDelete]
  | cons p rest ih =>
    by_cases hp : p.1 = k <;> simp [mapSet, mapDelete, hp, ih]

@[simp] theorem mapKeys_nil : mapKeys [] = [] := rfl

@[simp] theorem mapKeys_cons (p : String × List String) (rest : StrListMap) :
    mapKeys (p :: rest) = p.1 :: mapKeys rest := rfl

theorem mapGet_eq_none_of_not_mem_keys (m : StrListMap) (k : String)
    (h : k ∉ mapKeys m) : mapGet m k = none := by
  induction m with
  | nil => rfl
  | cons p rest ih =>
    rw [mapKeys_cons, List.mem_cons] at h
    push_neg at h
    simp [mapGet, Ne.symm h.1, ih h.2]

theorem mem_keys_iff_isSome (m : StrListMap) (k : String) :
    k ∈ mapKeys m ↔ (mapGet m k).isSome := by
  induction m with
  | nil => simp
  | cons p rest ih =>
    rw [mapKeys_cons, List.mem_cons]
    by_cases hp : p.1 = k
    · simp [mapGet, hp]
    · simp only [mapGet, if_neg hp]
      rw [← ih]
      constructor
      · rintro (h | h)
        · exact absurd h.symm hp
        · exact h
      · exact Or.inr

theorem mapGet_mapDelete_self (m : StrListMap) (k : String)
    (hnd : (mapKeys m).Nodup) : mapGet (mapDelete m k) k = none := by
  induction m with
  | nil => rfl
  | cons p rest ih =>
    rw [mapKeys_cons, List.nodup_cons] at hnd
    by_cases hp : p.1 = k
    · simp only [mapDelete, if_pos hp]
      exact mapGet_eq_none_of_not_mem_keys rest k (hp ▸ hnd.1)
    · simp [mapDelete, mapGet, hp, ih hnd.2]

theorem mem_of_mem_mapDelete (m : StrListMap) (k : String) (p : String × List String)
    (h : p ∈ mapDelete m k) : p ∈ m := by
  induction m with
  | nil => simp [mapDelete] at h
  | cons q rest ih =>
    by_cases hq : q.1 = k
    · simp [mapDelete, hq] at h
      exact List.mem_cons_of_mem q h
    · simp [mapDelete, hq] at h
      rcases h with h | h
      · exact h ▸ List.mem_cons_self q rest
      · exact List.mem_cons_of_mem q (ih h)

theorem mem_of_mem_mapSet (m : StrListMap) (k : String) (v : List String)
    (p : String × List String) (h : p ∈ mapSet m k v) : p ∈ m ∨ p = (k, v) := by
  induction m with
  | nil => simp [mapSet] at h; right; exact h
  | cons q rest ih =>
    by_cases hq : q.1 = k
    · simp [mapSet, hq] at h
      rcases h with h | h
      · right; exact h
      · left; exact List.mem_cons_of_mem q h
    · simp [mapSet, hq] at h
      rcases h with h | h
      · left; exact h ▸ List.mem_cons_self q rest
      · rcases ih h with h' | h'
        · left; exact List.mem_cons_of_mem q h'
        · right; exact h'

theorem mapKeys_mapSet_of_isSome (m : StrListMap) (k : String) (v : List String)
    (h : (mapGet m k).isSome) : mapKeys (mapSet m k v) = mapKeys m := by
  induction m with
  | nil => simp [mapGet] at h
  | cons p rest ih =>
    by_cases hp : p.1 = k
    · simp [mapSet, hp]
    · simp only [mapGet, if_neg hp] at h
      simp only [mapSet, if_neg hp, mapKeys_cons]
      rw [ih h]

theorem mapKeys_mapSet_of_none (m : StrListMap) (k : String) (v : List String)
    (h : mapGet m k = none) : mapKeys (mapSet m k v) = mapKeys m ++ [k] := by
  induction m with
  | nil => simp [mapSet]
  | cons p rest ih =>
    by_cases hp : p.1 = k
    · simp [mapGet, hp] at h
    · simp only [mapGet, if_neg hp] at h
      simp only [mapSet, if_neg hp, mapKeys_cons]
      rw [ih h]
      simp

theorem mapKeys_mapDelete_sublist (m : StrListMap) (k : String) :
    (mapKeys (mapDelete m k)).Sublist (mapKeys m) := by
  induction m with
  | nil => simp
  | cons p rest ih =>
    by_cases hp : p.1 = k
    · simp only [mapDelete, if_pos hp, mapKeys_cons]
      exact (List.Sublist.refl (mapKeys rest)).cons p.1
    · simp only [mapDelete, if_neg hp, mapKeys_cons]
      exact List.Sublist.cons₂ p.1 ih

theorem get_ne_nil_of_vals (m : StrListMap) (k : String) (l : List String)
    (hv : ∀ p ∈ m, p.2 ≠ []) (h : mapGet m k = some l) : l ≠ [] := by
  induction m with
  | nil => simp [mapGet] at h
  | cons p rest ih =>
    by_cases hp : p.1 = k
    · simp [mapGet, hp] at h
      exact h ▸ hv p (List.mem_cons_self p rest)
    · simp [mapGet, hp] at h
      exact ih (fun q hq => hv q (List.mem_cons_of_mem p hq)) h

theorem nodup_append_singleton {α : Type} {l : List α} {a : α}
    (h : l.Nodup) (ha : a ∉ l) : (l ++ [a]).Nodup := by
  rw [List.nodup_append]
  refine ⟨h, List.nodup_singleton a, ?dis⟩
  intro x hx hxa
  rw [List.mem_singleton] at hxa
  exact ha (hxa ▸ hx)

theorem filter_ne_of_not_mem {l : List String} {c : String} (h : c ∉ l) :
    l.filter (fun x => x ≠ c) = l :=
  List.filter_eq_self.mpr (fun _a ha => decide_eq_true (fun hac => h (hac ▸ ha)))

theorem connsOf_registerConn_self (m : Registry) (u : UserId) (c : ConnId) :
    connsOf (registerConn m u c) u = connsOf m u ++ [c] := by
  simp [connsOf, registerConn, mapGet_mapSet_self]

theorem connsOf_registerConn_ne (m : Registry) (u v : UserId) (c : ConnId)
    (h : u ≠ v) : connsOf (registerConn m u c) v = connsOf m v := by
  simp [connsOf, registerConn, mapGet_mapSet_ne m u v _ h]

theorem connsOf_unreg_self (m : Registry) (u : UserId) (c : ConnId)
    (hnd : (mapKeys m).Nodup) :
    connsOf ((handleDisconnectRegistry m u c).1) u
      = (connsOf m u).filter (fun x => x ≠ c) := by
  unfold handleDisconnectRegistry
  by_cases h : (((mapGet m u).getD []).filter (fun x => x ≠ c)).length > 0
  · simp only [h, if_pos]
    simp [connsOf, mapGet_mapSet_self]
  · simp only [h, if_neg, not_false_iff]
    have hnil : (connsOf m u).filter (fun x => x ≠ c) = [] :=
      List.eq_nil_of_length_eq_zero (Nat.eq_zero_of_not_pos h)
    rw [hnil]
    simp [connsOf, mapGet_mapDelete_self m u hnd]

theorem connsOf_unreg_ne (m : Registry) (u v : UserId) (c : ConnId)
    (h : u ≠ v) :
    connsOf ((handleDisconnectRegistry m u c).1) v = connsOf m v := by
  unfold handleDisconnectRegistry
  by_cases hl : (((mapGet m u).getD []).filter (fun x => x ≠ c)).length > 0
  · simp only [hl, if_pos]
    simp [connsOf, mapGet_mapSet_ne m u v _ h]
  · simp only [hl, if_neg, not_false_iff]
    simp [connsOf, mapGet_mapDelete_ne m u v h]

theorem wfReg_applyRegOp (m : Registry) (op : RegOp) (h : wfReg m) :
    wfReg (applyRegOp m op) := by
  obtain ⟨hnd, hv⟩ := h
  cases op with
  | reg u c =>
    constructor
    · by_cases hk : (mapGet m u).isSome
      · rw [applyRegOp, registerConn, mapKeys_mapSet_of_isSome _ _ _ hk]
        exact hnd
      · have hn : mapGet m u = none := Option.not_isSome_iff_eq_none.mp hk
        rw [applyRegOp, registerConn, mapKeys_mapSet_of_none _ _ _ hn]
        refine nodup_append_singleton hnd ?hm
        intro hmem
        rw [mem_keys_iff_isSome, hn] at hmem
        simp at hmem
    · intro p hp
      rcases mem_of_mem_mapSet _ _ _ p hp with hin | heq
      · exact hv p hin
      · rw [heq]
        simp
  | unreg u c =>
    rw [applyRegOp]
    unfold handleDisconnectRegistry
    by_cases hl : (((mapGet m u).getD []).filter (fun x => x ≠ c)).length > 0
    · simp only [hl, if_pos]
      constructor
      · by_cases hk : (mapGet m u).isSome
        · rw [mapKeys_mapSet_of_isSome _ _ _ hk]
          exact hnd
        · have hn : mapGet m u = none := Option.not_isSome_iff_eq_none.mp hk
          rw [mapKeys_mapSet_of_none _ _ _ hn]
          refine nodup_append_singleton hnd ?hm2
          intro hmem
          rw [mem_keys_iff_isSome, hn] at hmem
          simp at hmem
      · intro p hp
        rcases mem_of_mem_mapSet _ _ _ p hp with hin | heq
        · exact hv p hin
        · have hne : ((mapGet m u).getD []).filter (fun x => x ≠ c) ≠ [] := by
            intro hh
            rw [hh] at hl
            simp at hl
          rw [heq]
          exact hne
    · simp only [hl, if_neg, not_false_iff]
      constructor
      · exact List.Nodup.sublist (mapKeys_mapDelete_sublist m u) hnd
      · intro p hp
        exact hv p (mem_of_mem_mapDelete m u p hp)

theorem connsOf_applyRegOp (m : Registry) (op : RegOp) (u : UserId)
    (hnd : (mapKeys m).Nodup) :
    connsOf (applyRegOp m op) u = liveStepFn u (connsOf m u) op := by
  cases op with
  | reg v c =>
    by_cases h : v = u
    · subst h
      simp [applyRegOp, liveStepFn, connsOf_registerConn_self]
    · simp [applyRegOp, liveStepFn, h, connsOf_registerConn_ne m v u c h]
  | unreg v c =>
    by_cases h : v = u
    · subst h
      simp [applyRegOp, liveStepFn, connsOf_unreg_self m v c hnd]
    · simp [applyRegOp, liveStepFn, h, connsOf_unreg_ne m v u c h]

theorem runRegOps_core (ops : List RegOp) :
    ∀ m : Registry, wfReg m →
      wfReg (List.foldl applyRegOp m ops) ∧
      ∀ u, connsOf (List.foldl applyRegOp m ops) u
        = List.foldl (liveStepFn u) (connsOf m u) ops := by
  induction ops with
  | nil =>
    intro m hm
    exact ⟨hm, fun u => rfl⟩
  | cons op ops ih =>
    intro m hm
    obtain ⟨hw, hc⟩ := ih (applyRegOp m op) (wfReg_applyRegOp m op hm)
    refine ⟨hw, fun u => ?conn⟩
    rw [List.foldl_cons, hc u, connsOf_applyRegOp m op u hm.1, List.foldl_cons]

/-- Every reachable registry state is well-formed, and its per-user
connection list agrees with the specification-level trace semantics. -/
theorem runRegOps_wf_and_live (ops : List RegOp) :
    wfReg (runRegOps ops) ∧ ∀ u, connsOf (runRegOps ops) u = liveConns ops u := by
  obtain ⟨hw, hc⟩ := runRegOps_core ops [] ⟨List.nodup_nil, by simp⟩
  exact ⟨hw, fun u => hc u⟩

/-! ## Claim C2 -/

/-- Claim C2: in every registry state reachable by a finite sequence of
register (connect) and unregister (disconnect) operations, `isUserOnline u`
is true iff `u` has at least one live registered connection (the trace-level
live-connection list is non-empty); the registry never retains an identity
mapped to an empty connection list; and `getOnlineUsers` contains exactly
the identities with at least one live connection. -/
theorem c2_registry_online_invariant (ops : List RegOp) (u : UserId) :
    (isUserOnline (runRegOps ops) u = true ↔ liveConns ops u ≠ []) ∧
    (∀ l, mapGet (runRegOps ops) u = some l → l ≠ []) ∧
    (u ∈ getOnlineUsers (runRegOps ops) ↔ liveConns ops u ≠ []) := by
  obtain ⟨⟨hnd, hv⟩, hc⟩ := runRegOps_wf_and_live ops
  have hlive := hc u
  have hmain : isUserOnline (runRegOps ops) u = true ↔ liveConns ops u ≠ [] := by
    rw [← hlive]
    unfold isUserOnline mapHas connsOf
    cases hg : mapGet (runRegOps ops) u with
    | none => simp
    | some l => simp [get_ne_nil_of_vals _ u l hv hg]
  refine ⟨hmain, fun l hl => get_ne_nil_of_vals _ u l hv hl, ?keys⟩
  rw [getOnlineUsers, mem_keys_iff_isSome, ← hmain]
  exact Iff.rfl

/-- Witness for the C2 theorem at the concrete trace
register(u1,c1); register(u1,c2); unregister(u1,c1). -/
theorem c2_registry_online_invariant_witness :
    isUserOnline (runRegOps [RegOp.reg "u1" "c1", RegOp.reg "u1" "c2",
      RegOp.unreg "u1" "c1"]) "u1" = true ∧
    mapGet (runRegOps [RegOp.reg "u1" "c1", RegOp.reg "u1" "c2",
      RegOp.unreg "u1" "c1"]) "u1" = some ["c2"] ∧
    ["c2"] ≠ ([] : List ConnId) ∧
    "u1" ∈ getOnlineUsers (runRegOps [RegOp.reg "u1" "c1", RegOp.reg "u1" "c2",
      RegOp.unreg "u1" "c1"]) := by
  have h := c2_registry_online_invariant
    [RegOp.reg "u1" "c1", RegOp.reg "u1" "c2", RegOp.unreg "u1" "c1"] "u1"
  exact ⟨h.1.mpr (by decide), by rfl, h.2.1 ["c2"] (by rfl), h.2.2.mpr (by decide)⟩

/-! ## Claim C3 -/

/-- Claim C3 counterexample: after `u1` is already online through `c1`
(its connection list is non-empty), registering a second connection `c2`
still emits an online user-status event — the source emits the event on
every registration, not only on the offline-to-online transition, so the
claimed "no online-status event for an already-online identity" is false. -/
theorem c3_counterexample :
    connsOf st1.userSockets "u1" = ["c1"] ∧
    (handleConnect st1 "u1" "c2").2 = [(Target.all, Event.userStatus "u1" true)] ∧
    [(Target.all, Event.userStatus "u1" true)] ≠ ([] : List Emit) := by
  exact ⟨by rfl, by rfl, by decide⟩

/-- Claim C3 (amended): registering a connection emits exactly one online
user-status event unconditionally — in particular on the offline-to-online
transition, but also when the identity is already online. -/
theorem c3_amended_register_always_emits_online (st : ServerState) (u : UserId)
    (c : ConnId) :
    (handleConnect st u c).2 = [(Target.all, Event.userStatus u true)] := rfl

/-! ## Claim C7 -/

/-- Claim C7 counterexample: registering the same connection id twice for
the same user pushes a duplicate onto the user's socket array, so the
registry state differs from a single registration and the entry set holds
`c` twice — `register` is not idempotent per connection id as claimed. -/
theorem c7_counterexample :
    registerConn (registerConn [] "u1" "s1") "u1" "s1" = [("u1", ["s1", "s1"])] ∧
    registerConn [] "u1" "s1" = [("u1", ["s1"])] ∧
    ([("u1", ["s1", "s1"])] : Registry) ≠ [("u1", ["s1"])] := by
  exact ⟨by rfl, by rfl, by decide⟩

/-- Claim C7 (amended): a duplicate registration appends a second copy of
the connection id (the state is not literally the same), but it is
observationally idempotent: `isUserOnline` and `getOnlineUsers` are
identical to the singly-registered state, and the disconnect-handler update
for that connection id coincides from both states, because it filters out
every copy at once. -/
theorem c7_amended_register_observably_idempotent (m : Registry) (u : UserId)
    (c : ConnId) :
    (∀ v, isUserOnline (registerConn (registerConn m u c) u c) v
        = isUserOnline (registerConn m u c) v) ∧
    getOnlineUsers (registerConn (registerConn m u c) u c)
      = getOnlineUsers (registerConn m u c) ∧
    handleDisconnectRegistry (registerConn (registerConn m u c) u c) u c
      = handleDisconnectRegistry (registerConn m u c) u c := by
  have hm1 : registerConn m u c = mapSet m u ((mapGet m u).getD [] ++ [c]) := rfl
  have hg1 : mapGet (registerConn m u c) u = some ((mapGet m u).getD [] ++ [c]) := by
    rw [hm1]
    exact mapGet_mapSet_self m u _
  have hm2 : registerConn (registerConn m u c) u c
      = mapSet m u (((mapGet m u).getD [] ++ [c]) ++ [c]) := by
    show mapSet (registerConn m u c) u
        ((mapGet (registerConn m u c) u).getD [] ++ [c]) = _
    rw [hg1]
    simp only [Option.getD_some]
    rw [hm1, mapSet_mapSet]
  have hg2 : mapGet (registerConn (registerConn m u c) u c) u
      = some (((mapGet m u).getD [] ++ [c]) ++ [c]) := by
    rw [hm2]
    exact mapGet_mapSet_self m u _
  refine ⟨?vis, ?keys, ?disc⟩
  · intro v
    by_cases hv : u = v
    · subst hv
      unfold isUserOnline mapHas
      rw [hg1, hg2]
      rfl
    · unfold isUserOnline mapHas
      rw [hm2, hm1, mapGet_mapSet_ne m u v _ hv, mapGet_mapSet_ne m u v _ hv]
  · unfold getOnlineUsers
    by_cases hk : (mapGet m u).isSome
    · rw [hm2, hm1, mapKeys_mapSet_of_isSome _ _ _ hk, mapKeys_mapSet_of_isSome _ _ _ hk]
    · have hn : mapGet m u = none := Option.not_isSome_iff_eq_none.mp hk
      rw [hm2, hm1, mapKeys_mapSet_of_none _ _ _ hn, mapKeys_mapSet_of_none _ _ _ hn]
  · have hfil : ∀ xs : List ConnId,
        (xs ++ [c]).filter (fun x => x ≠ c) = xs.filter (fun x => x ≠ c) := by
      intro xs
      simp [List.filter_append]
    unfold handleDisconnectRegistry
    rw [hg1, hg2]
    simp only [Option.getD_some]
    rw [hfil, hfil]
    by_cases hp : ((((mapGet m u).getD []).filter (fun x => x ≠ c)).length > 0)
    · simp only [if_pos hp]
      rw [hm2, hm1, mapSet_mapSet, mapSet_mapSet]
    · simp only [if_neg hp]
      rw [hm2, hm1, mapDelete_mapSet, mapDelete_mapSet]

/-! ## Claim C8 -/

/-- Claim C8 counterexample: a disconnect signal for an identity with no
registry entry at all (so the connection id is certainly not in its entry
set) leaves the registry unchanged but still broadcasts an offline
user-status event — contradicting the claim that no offline status event is
emitted. -/
theorem c8_counterexample :
    handleDisconnectRegistry [] "u1" "s1"
      = ([], [(Target.all, Event.userStatus "u1" false)]) ∧
    ([(Target.all, Event.userStatus "u1" false)] : List Emit) ≠ [] := by
  exact ⟨by rfl, by decide⟩

/-- Claim C8 (amended): when the connection id is absent from the
identity's non-empty entry list, the disconnect update is a true no-op
(state unchanged, no event); but when the identity has no entry at all the
registry is unchanged and a spurious offline user-status event is still
broadcast. -/
theorem c8_amended_unregister_absent (m : Registry) (u : UserId) (c : ConnId) :
    (∀ l, mapGet m u = some l → c ∉ l → l ≠ [] →
       handleDisconnectRegistry m u c = (m, [])) ∧
    (mapGet m u = none →
       handleDisconnectRegistry m u c
         = (m, [(Target.all, Event.userStatus u false)])) := by
  constructor
  · intro l hl hc hne
    unfold handleDisconnectRegistry
    rw [hl]
    simp only [Option.getD_some]
    rw [filter_ne_of_not_mem hc]
    rw [if_pos (List.length_pos.mpr hne)]
    rw [mapSet_get_self m u l hl]
  · intro hn
    unfold handleDisconnectRegistry
    rw [hn]
    simp only [Option.getD_none, List.filter_nil, List.length_nil]
    rw [if_neg (by simp)]
    rw [mapDelete_get_none m u hn]

/-- Witness for the C8 amended theorem: both branches at concrete inputs. -/
theorem c8_amended_unregister_absent_witness :
    mapGet [("u1", ["s1"])] "u1" = some ["s1"] ∧ "s9" ∉ ["s1"] ∧
    ["s1"] ≠ ([] : List String) ∧
    handleDisconnectRegistry [("u1", ["s1"])] "u1" "s9" = ([("u1", ["s1"])], []) ∧
    mapGet [("u2", ["s2"])] "u1" = none ∧
    handleDisconnectRegistry [("u2", ["s2"])] "u1" "s1"
      = ([("u2", ["s2"])], [(Target.all, Event.userStatus "u1" false)]) := by
  refine ⟨by rfl, by decide, by decide, ?g1, by rfl, ?g2⟩
  · exact (c8_amended_unregister_absent [("u1", ["s1"])] "u1" "s9").1
      ["s1"] (by rfl) (by decide) (by decide)
  · exact (c8_amended_unregister_absent [("u2", ["s2"])] "u1" "s1").2 (by rfl)

/-! ## Claim C1 -/

/-- Claim C1: for every send-message command and every behaviour of the
persistence collaborator, if `MessageService.sendMessage` fails then the
handler leaves the state unchanged and emits exactly one `error` event on
the originating connection (so no direct-message or group-message event is
delivered to anyone); and conversely any direct-message or group-message
emission implies the persistence call returned success first. -/
theorem c1_persistence_failure_no_delivery (st : ServerState) (c : ConnId)
    (u : UserId) (raw : RawMessage) (createOutcome : Except String Unit)
    (newId : MsgId) (now : String) :
    (∀ p e, parseCreateMessage raw = Except.ok p →
       sendMessageSvc st u p.content p.receiver p.group createOutcome newId now
         = Except.error e →
       handleSendMessage st c u raw createOutcome newId now
         = (st, [(Target.self c, Event.errorEvent e)])) ∧
    (∀ t fm,
       ((t, Event.directMessage fm)
           ∈ (handleSendMessage st c u raw createOutcome newId now).2 ∨
        ∃ g, (t, Event.groupMessage fm g)
           ∈ (handleSendMessage st c u raw createOutcome newId now).2) →
       ∃ p r, parseCreateMessage raw = Except.ok p ∧
         sendMessageSvc st u p.content p.receiver p.group createOutcome newId now
           = Except.ok r) := by
  constructor
  · intro p e hp hs
    unfold handleSendMessage
    rw [hp]
    dsimp only
    rw [hs]
  · intro t fm hmem
    unfold handleSendMessage at hmem
    cases hp : parseCreateMessage raw with
    | error e =>
      rw [hp] at hmem
      dsimp only at hmem
      simp at hmem
    | ok p =>
      rw [hp] at hmem
      dsimp only at hmem
      cases hs : sendMessageSvc st u p.content p.receiver p.group createOutcome
          newId now with
      | error e =>
        rw [hs] at hmem
        dsimp only at hmem
        simp at hmem
      | ok pr =>
        exact ⟨p, pr, rfl, hs⟩

/-- Witness for the C1 theorem: in the connected scenario, a failing
`Message.create` yields exactly one error event and no state change. -/
theorem c1_persistence_failure_no_delivery_witness :
    parseCreateMessage c1raw
      = Except.ok { content := "hi", receiver := none, group := some gid1 } ∧
    sendMessageSvc st5 "u1" "hi" none (some gid1) (Except.error "database down")
      "m9" c4now = Except.error "database down" ∧
    handleSendMessage st5 "c1" "u1" c1raw (Except.error "database down") "m9" c4now
      = (st5, [(Target.self "c1", Event.errorEvent "database down")]) := by
  refine ⟨by rfl, by rfl, ?h⟩
  exact (c1_persistence_failure_no_delivery st5 "c1" "u1" c1raw
      (Except.error "database down") "m9" c4now).1
    { content := "hi", receiver := none, group := some gid1 } "database down"
    (by rfl) (by rfl)

/-! ## Claim C4 -/

/-- Claim C4 counterexample: in the scenario (c1 of u1 and c2 of u2 joined
to the room of group `gid1`, u1 sends "hello"), the group-message envelope
delivered to the sender's own connection c1 carries `isOwn = false`, not
`isOwn = true` as claimed — `emitGroupMessage` spreads the formatted message
(whose `isOwn` is `false`) to the whole room, sender included; no delivered
group-message envelope has `isOwn = true`. -/
theorem c4_counterexample :
    deliveries c4send.1 c4send.2
      = [("c1", Event.groupMessage c4fm gid1),
         ("c2", Event.groupMessage c4fm gid1),
         ("c1", Event.messageSent true { c4fm with isOwn := true })] ∧
    c4fm.isOwn = false ∧
    (deliveries c4send.1 c4send.2).all
        (fun d => match d.2 with
          | Event.groupMessage fm _ => !fm.isOwn
          | _ => true) = true := by
  exact ⟨by rfl, by rfl, by rfl⟩

/-- Claim C4 (amended): in the scenario, exactly one message is persisted,
and a group-message envelope with text "hello" is delivered to exactly the
connections joined to the room — c1 and c2 — each with `isOwn = false` (the
sender receives its `isOwn = true` copy only through the separate
`message-sent` acknowledgement); the group member u3, whose connection c3
has not joined the room, receives nothing. -/
theorem c4_amended_group_scenario :
    c4send.1.messages = [c4msg] ∧
    c4fm.text = "hello" ∧
    c4fm.isOwn = false ∧
    roomConns c4send.1.rooms ("group:" ++ gid1) = ["c1", "c2"] ∧
    deliveries c4send.1 c4send.2
      = [("c1", Event.groupMessage c4fm gid1),
         ("c2", Event.groupMessage c4fm gid1),
         ("c1", Event.messageSent true { c4fm with isOwn := true })] ∧
    (deliveries c4send.1 c4send.2).all (fun d => d.1 != "c3") = true := by
  exact ⟨by rfl, by rfl, by rfl, by rfl, by rfl, by rfl⟩

/-! ## Claim C5 -/

/-- Claim C5: when handshake authentication fails (no token, invalid token,
or unknown user), the connection attempt leaves the server state unchanged
and emits nothing — the connection never enters the presence registry and no
online status event is emitted for it; moreover no command from a
never-admitted connection id is processed. -/
theorem c5_auth_failure_never_registered (st : ServerState) (c : ConnId)
    (token : Option TokenVerify) (e : String)
    (h : socketAuth st.users token = Except.error e) :
    handleConnectionAttempt st c token = (st, []) ∧
    (connUser st c = none → ∀ cmd, processCommand st c cmd = (st, [])) := by
  constructor
  · unfold handleConnectionAttempt
    rw [h]
  · intro hcu cmd
    unfold processCommand
    rw [hcu]

/-- Witness for the C5 theorem: a token-less connection attempt against the
populated startup state. -/
theorem c5_auth_failure_never_registered_witness :
    socketAuth st0.users none
      = Except.error "Authentication error: Token not provided" ∧
    handleConnectionAttempt st0 "c1" none = (st0, []) ∧
    connUser st0 "c1" = none ∧
    processCommand st0 "c1" (Command.joinGroup gid1) = (st0, []) := by
  have h := c5_auth_failure_never_registered st0 "c1" none
    "Authentication error: Token not provided" (by rfl)
  exact ⟨by rfl, h.1, by rfl, h.2 (by rfl) (Command.joinGroup gid1)⟩

/-! ## Claim C6 -/

/-- Claim C6: a join-room command for a group that does not exist, or whose
member list does not contain the requesting identity, leaves the whole
server state (in particular room membership) unchanged and emits exactly one
error event back to the requesting connection — no user-joined signal is
emitted to anyone. -/
theorem c6_join_denied_no_state_change (st : ServerState) (c : ConnId)
    (u : UserId) (g : GroupId) :
    (st.groups.find? (fun x => x.gid = g) = none →
       handleJoinGroup st c u g
         = (st, [(Target.self c, Event.errorEvent "Group not found")])) ∧
    (∀ grp, st.groups.find? (fun x => x.gid = g) = some grp → u ∉ grp.members →
       handleJoinGroup st c u g
         = (st, [(Target.self c,
             Event.errorEvent "You are not a member of this group")])) := by
  constructor
  · intro h
    unfold handleJoinGroup
    rw [h]
  · intro grp h hm
    unfold handleJoinGroup
    rw [h]
    simp [hm]

/-- Witness for the C6 theorem: both failure branches at concrete inputs
(`"zz"` is no group id; `u1` is not a member of `gid2`). -/
theorem c6_join_denied_no_state_change_witness :
    st0.groups.find? (fun x => x.gid = "zz") = none ∧
    handleJoinGroup st0 "c1" "u1" "zz"
      = (st0, [(Target.self "c1", Event.errorEvent "Group not found")]) ∧
    st0.groups.find? (fun x => x.gid = gid2) = some g2rec ∧
    "u1" ∉ g2rec.members ∧
    handleJoinGroup st0 "c1" "u1" gid2
      = (st0, [(Target.self "c1",
          Event.errorEvent "You are not a member of this group")]) := by
  refine ⟨by rfl, (c6_join_denied_no_state_change st0 "c1" "u1" "zz").1 (by rfl),
    by rfl, by decide,
    (c6_join_denied_no_state_change st0 "c1" "u1" gid2).2 g2rec (by rfl) (by decide)⟩

/-! ## Claim C9 -/

/-- Claim C9 counterexample: `c2` has joined the room of `gid1` but `c1`
has not; a leave-room command from `c1` leaves room membership unchanged,
yet `c2` still receives a user-left signal — the handler emits
`user-left-group` unconditionally, contradicting the claimed "no user-left
signal is emitted". -/
theorem c9_counterexample :
    roomConns st4b.rooms ("group:" ++ gid1) = ["c2"] ∧
    (processCommand st4b "c1" (Command.leaveGroup gid1)).1 = st4b ∧
    deliveries (processCommand st4b "c1" (Command.leaveGroup gid1)).1
        (processCommand st4b "c1" (Command.leaveGroup gid1)).2
      = [("c2", Event.userLeftGroup "u1" gid1)] ∧
    [("c2", Event.userLeftGroup "u1" gid1)] ≠ ([] : List (ConnId × Event)) := by
  exact ⟨by rfl, by rfl, by rfl, by decide⟩

/-- Claim C9 (amended): a leave-room command from a connection that is not
in the room leaves the server state unchanged (a no-op on room membership),
but the user-left signal is still emitted and reaches every connection
currently in the room. -/
theorem c9_amended_leave_not_joined (st : ServerState) (c : ConnId) (u : UserId)
    (g : GroupId) (hv : ∀ p ∈ st.rooms, p.2 ≠ [])
    (h : c ∉ roomConns st.rooms ("group:" ++ g)) :
    (handleLeaveGroup st c u g).1 = st ∧
    (handleLeaveGroup st c u g).2
      = [(Target.roomExcept ("group:" ++ g) c, Event.userLeftGroup u g)] ∧
    targetConns (handleLeaveGroup st c u g).1
        (Target.roomExcept ("group:" ++ g) c)
      = roomConns st.rooms ("group:" ++ g) := by
  have hrooms : leaveRoomMap st.rooms ("group:" ++ g) c = st.rooms := by
    unfold leaveRoomMap
    cases hg : mapGet st.rooms ("group:" ++ g) with
    | none => rfl
    | some l =>
      have hcl : c ∉ l := by
        unfold roomConns at h
        rw [hg] at h
        simpa using h
      have hlne : l ≠ [] := get_ne_nil_of_vals st.rooms _ l hv hg
      simp only []
      rw [filter_ne_of_not_mem hcl, if_neg hlne]
      exact mapSet_get_self st.rooms _ l hg
  have hst : (handleLeaveGroup st c u g).1 = st := by
    show { st with rooms := leaveRoomMap st.rooms ("group:" ++ g) c } = st
    rw [hrooms]
  refine ⟨hst, rfl, ?t⟩
  show (roomConns (handleLeaveGroup st c u g).1.rooms ("group:" ++ g)).filter
      (fun x => x ≠ c) = roomConns st.rooms ("group:" ++ g)
  rw [hst]
  exact filter_ne_of_not_mem h

/-- Witness for the C9 amended theorem at the concrete scenario state. -/
theorem c9_amended_leave_not_joined_witness :
    (∀ p ∈ st4b.rooms, p.2 ≠ []) ∧
    "c1" ∉ roomConns st4b.rooms ("group:" ++ gid1) ∧
    (handleLeaveGroup st4b "c1" "u1" gid1).1 = st4b ∧
    targetConns (handleLeaveGroup st4b "c1" "u1" gid1).1
        (Target.roomExcept ("group:" ++ gid1) "c1")
      = roomConns st4b.rooms ("group:" ++ gid1) := by
  have h := c9_amended_leave_not_joined st4b "c1" "u1" gid1 (by decide) (by decide)
  exact ⟨by decide, by decide, h.1, h.2.2⟩

/-! ## Claim C10 -/

/-- Claim C10: `markMessagesAsRead` is idempotent and monotone — applying it
twice equals applying it once, and each message is only changed by inserting
the user into its `readBy` set (the user ends up in `readBy` exactly for the
listed messages, existing readers are never removed, no duplicate is
introduced, and no other field is modified). -/
theorem c10_markRead_idempotent_monotone (msgs : List PersistedMessage)
    (u : UserId) (ids : List MsgId) :
    markMessagesAsRead (markMessagesAsRead msgs u ids) u ids
      = markMessagesAsRead msgs u ids ∧
    List.Forall₂ (fun m m' : PersistedMessage =>
        m'.mid = m.mid ∧ m'.content = m.content ∧ m'.senderId = m.senderId ∧
        m'.receiver = m.receiver ∧ m'.group = m.group ∧
        m'.createdAt = m.createdAt ∧
        (m'.readBy = m.readBy ∨ m'.readBy = m.readBy ++ [u]) ∧
        (∀ v ∈ m.readBy, v ∈ m'.readBy) ∧
        (u ∈ m'.readBy ↔ (u ∈ m.readBy ∨ m.mid ∈ ids)) ∧
        (m.readBy.Nodup → m'.readBy.Nodup))
      msgs (markMessagesAsRead msgs u ids) := by
  constructor
  · induction msgs with
    | nil => rfl
    | cons m rest ih =>
      simp only [markMessagesAsRead, List.map_cons] at ih ⊢
      rw [ih]
      congr 1
      by_cases hc : m.mid ∈ ids ∧ u ∉ m.readBy
      · simp [hc]
      · simp [hc]
  · induction msgs with
    | nil => exact List.Forall₂.nil
    | cons m rest ih =>
      simp only [markMessagesAsRead, List.map_cons]
      refine List.Forall₂.cons ?rel ih
      by_cases hc : m.mid ∈ ids ∧ u ∉ m.readBy
      · rw [if_pos hc]
        refine ⟨rfl, rfl, rfl, rfl, rfl, rfl, Or.inr rfl, ?mono, ?memiff, ?nodup⟩
        · intro v hv
          exact List.mem_append_left _ hv
        · constructor
          · intro _
            exact Or.inr hc.1
          · intro _
            simp
        · intro hnd
          exact nodup_append_singleton hnd hc.2
      · rw [if_neg hc]
        have hor : m.mid ∈ ids → u ∈ m.readBy := by
          intro hid
          by_contra hu
          exact hc ⟨hid, hu⟩
        refine ⟨rfl, rfl, rfl, rfl, rfl, rfl, Or.inl rfl, fun v hv => hv,
          ?memiff2, fun hnd => hnd⟩
        constructor
        · exact Or.inl
        · rintro (hh | hh)
          · exact hh
          · exact hor hh

/-- Witness for the C10 theorem at a concrete message store. -/
theorem c10_markRead_idempotent_monotone_witness :
    markMessagesAsRead (markMessagesAsRead [c4msg] "u2" ["m1"]) "u2" ["m1"]
      = markMessagesAsRead [c4msg] "u2" ["m1"] ∧
    markMessagesAsRead [c4msg] "u2" ["m1"]
      = [{ c4msg with readBy := ["u1", "u2"] }] :=
  ⟨(c10_markRead_idempotent_monotone [c4msg] "u2" ["m1"]).1, by rfl⟩

end WorkplaceConnect
